import Mathlib

/-!
A verification development for the two HTML-to-DOCX conversion scripts of
this repository (`scripts/build-resume-docx.py` and
`scripts/build-coverletter-docx.py`).

The scripts are shallowly embedded as follows.

* The HTML input is modelled at the level at which the scripts query it:
  a nested record of the class-named elements the extractors look up
  (`find` results become `Option` fields; `find_all` results become
  lists).  Element text is modelled as the string that
  `get_text(strip=True)` / `get_text(" ", strip=True)` would return, so
  whitespace collapsing is already applied in the model.
* A Python attribute access on a `find` result that returned `None`
  raises `AttributeError`; an out-of-range list subscript raises
  `IndexError`.  Extraction is therefore modelled in the `Except PError`
  monad, aborting at the first such fault, exactly as the exception
  aborts the script.
* The generated Word document is modelled as the list of blocks
  (paragraphs and tables) the renderer emits, with each run carrying the
  text, boldness, italics, color and point size the code sets.  Purely
  cosmetic XML fixups (cell shading, border removal, cell margins and
  widths, paragraph spacing in points) carry no extracted content and
  are not modelled.
* `__main__` is modelled as extraction followed by rendering; an
  extraction fault yields `Except.error`, i.e. no document value.
-/

namespace Docx

/-- RGB colors, as 24-bit values; from the scripts' brand constants. -/
abbrev Color := Nat

def PRIMARY : Color := 0x0D6E6E
def SECONDARY : Color := 0x14919B
def ACCENT : Color := 0x1A3A3A
def DARK : Color := 0x2C3E50
def WHITE : Color := 0xFFFFFF
def GRAY : Color := 0x666666

/-- Paragraph alignment (`WD_ALIGN_PARAGRAPH`). -/
inductive Align where
  | left
  | center
  | right
  | justify
deriving DecidableEq, Repr

/-- A formatted run, as produced by the scripts' `add_run` helper. -/
structure Run where
  text : String
  bold : Bool := false
  italic : Bool := false
  allCaps : Bool := false
  color : Option Color := none
  size : Option Nat := none
deriving DecidableEq, Repr

/-- A paragraph: an alignment and its runs, in insertion order. -/
structure Para where
  align : Align := .left
  runs : List Run := []
deriving DecidableEq, Repr

/-- A table cell holds a list of paragraphs (`cell.paragraphs[0]` plus
`cell.add_paragraph()` calls). -/
abbrev Cell := List Para

/-- A table is a grid: rows of cells. -/
abbrev Grid := List (List Cell)

/-- A document block: either a paragraph or a table, in the order the
renderer appends them to the document. -/
inductive Block where
  | para (p : Para)
  | table (t : Grid)
deriving DecidableEq, Repr

/-- `doc.add_table(rows, cols)` creates a grid of cells, each holding
one empty paragraph. -/
def emptyPara : Para := {}

def emptyCell : Cell := [emptyPara]

def add_table (rows cols : Nat) : Grid :=
  List.replicate rows (List.replicate cols emptyCell)

/-- Overwrite the cell at row `r`, column `c` (the model of mutating
`table.cell(r, c)`). Out-of-range indices leave the grid unchanged. -/
def setCell (g : Grid) (r c : Nat) (cell : Cell) : Grid :=
  g.set r ((g.getD r []).set c cell)

/-- Look up the cell at row `r`, column `c`. -/
def getCell (g : Grid) (r c : Nat) : Option Cell :=
  (g[r]?).bind fun row => row[c]?

/-- One run of the header contact row: contact text, white, 9pt. -/
def contactRun (c : String) : Run :=
  { text := c, color := some WHITE, size := some 9 }

/-- The four-space spacer run inserted between consecutive contacts. -/
def spacerRun : Run :=
  { text := "    ", color := some WHITE, size := some 9 }

/-- The contact-row runs: both scripts loop `for i, contact in
enumerate(contacts)`, adding the spacer run before every contact with
`i > 0` and then the contact run itself. -/
def contactRuns (contacts : List String) : List Run :=
  contacts.enum.flatMap fun ic =>
    (if 0 < ic.1 then [spacerRun] else []) ++ [contactRun ic.2]

/-- The three paragraphs of the shaded header cell: centered name
(bold, white, 22pt), centered all-caps title (white, 11pt), centered
contact row. -/
def headerCellParas (name title : String) (contacts : List String) : List Para :=
  [ { align := .center,
      runs := [{ text := name, bold := true, color := some WHITE, size := some 22 }] },
    { align := .center,
      runs := [{ text := title, allCaps := true, color := some WHITE, size := some 11 }] },
    { align := .center, runs := contactRuns contacts } ]

/-- The single-cell header table of both documents. -/
def headerTable (name title : String) (contacts : List String) : Grid :=
  [[headerCellParas name title contacts]]

/-- An extraction fault: the Python exception class that aborts the
script when a required element is absent. -/
inductive PError where
  | attributeError
  | indexError
deriving DecidableEq, Repr

/-- The result of `soup.find(...)` followed by use of the result: `none`
(element absent) raises `AttributeError` and aborts. -/
def findOr {α : Type} (o : Option α) : Except PError α :=
  match o with
  | none => .error .attributeError
  | some a => .ok a

/-- The `div class="header"` block: the `h1` text, the `div
class="title"` text, and the stripped texts of the `contact-row`
children (structural children may contribute empty strings, which the
extractors filter out). A `none` field means the element is absent. -/
structure HeaderDiv where
  h1 : Option String
  titleDiv : Option String
  contactRow : Option (List String)
deriving DecidableEq, Repr

end Docx

namespace Resume

open Docx

/-- A `span` triple inside a `div class="job-header"`: title, company
and date sub-spans, each `none` when the span is absent. -/
structure JobHeaderDiv where
  title : Option String
  company : Option String
  date : Option String
deriving DecidableEq, Repr

/-- A `div class="job"` element: its optional `job-header` sub-block
and its optional `ul class="job-bullets"` list of `li` texts. -/
structure JobDiv where
  header : Option JobHeaderDiv
  bullets : Option (List String)
deriving DecidableEq, Repr

/-- A `div class="two-column"` element: its immediate child columns,
each a list of `cert-item` texts. -/
structure TwoColumnDiv where
  columns : List (List String)
deriving DecidableEq, Repr

/-- A `div class="section"` element: the optional `section-title` text,
the `div class="job"` children, and the optional `two-column` child. -/
structure SectionDiv where
  title : Option String
  jobs : List JobDiv
  twoColumn : Option TwoColumnDiv
deriving DecidableEq, Repr

/-- The queried shape of `resume.html`: the header block, the
`skills-grid` item texts, and the `section` divs. -/
structure ResumeHtml where
  header : Option HeaderDiv
  skillsGrid : Option (List String)
  sections : List SectionDiv
deriving DecidableEq, Repr

/-- A parsed job record: every field defaults to the empty string or
the empty list when the corresponding element is absent. -/
structure Job where
  title : String
  company : String
  date : String
  bullets : List String
deriving DecidableEq, Repr, Inhabited

/-- The record produced by `parse_resume`.  The education field is a
dict in the script, read back with `.get("left", [])` /
`.get("right", [])`; it is modelled by the two lists with `[]` as the
initial value. -/
structure ResumeData where
  name : String
  title : String
  contacts : List String
  skills : List String
  jobs : List Job
  military : List Job
  eduLeft : List String
  eduRight : List String
deriving DecidableEq, Repr

/-- `_parse_job`: locate the `job-header` sub-block (aborting when it
is absent, since `header.find(...)` is then an attribute access on
`None`), read each sub-span with `""` as default, and collect the
bullet texts with `[]` as default. -/
def _parse_job (j : JobDiv) : Except PError Job :=
  match j.header with
  | none => .error .attributeError
  | some h =>
      .ok { title := h.title.getD "", company := h.company.getD "",
            date := h.date.getD "", bullets := j.bullets.getD [] }

/-- The `for job_div in section.find_all("div", class_="job")` loop:
parse each job element in order, aborting at the first faulting one. -/
def parseJobs (jobs : List JobDiv) : Except PError (List Job) :=
  match jobs with
  | [] => .ok []
  | j :: rest => do
      let job ← _parse_job j
      let more ← parseJobs rest
      .ok (job :: more)

/-- The body of the `for section in sections` loop of `parse_resume`:
a section without a `section-title`, or whose title is none of the
three recognized strings, is skipped; the education branch reads the
first two immediate columns of the `two-column` child (aborting when
the child is absent or has fewer than two columns). -/
def processSection (data : ResumeData) (s : SectionDiv) : Except PError ResumeData :=
  match s.title with
  | none => .ok data
  | some t =>
      if t = "Professional Experience" then do
        let js ← parseJobs s.jobs
        .ok { data with jobs := data.jobs ++ js }
      else if t = "Military Service" then do
        let js ← parseJobs s.jobs
        .ok { data with military := data.military ++ js }
      else if t = "Education & Certifications" then
        match s.twoColumn with
        | none => .error .attributeError
        | some tc =>
            match tc.columns with
            | c0 :: c1 :: _ => .ok { data with eduLeft := c0, eduRight := c1 }
            | _ => .error .indexError
      else
        .ok data

/-- `parse_resume`: read the header fields (name, title, contacts,
filtering empty child texts), the skills, then fold the section loop
over all `section` divs. -/
def parse_resume (html : ResumeHtml) : Except PError ResumeData := do
  let header ← findOr html.header
  let name ← findOr header.h1
  let title ← findOr header.titleDiv
  let contactRow ← findOr header.contactRow
  let contacts := contactRow.filter fun t => t ≠ ""
  let skills ← findOr html.skillsGrid
  let init : ResumeData :=
    { name := name, title := title, contacts := contacts, skills := skills,
      jobs := [], military := [], eduLeft := [], eduRight := [] }
  html.sections.foldlM processSection init

/-- One skills cell: a check-mark run (bold, primary, 10pt) followed by
the skill text run (dark, 10pt). -/
def skillCell (skill : String) : Cell :=
  [{ runs := [ { text := "✓ ", bold := true, color := some PRIMARY, size := some 10 },
               { text := skill, color := some DARK, size := some 10 } ] }]

/-- The skill-filling loop: `for i, skill in enumerate(skills)` writes
the cell at row `i / 2`, column `i % 2`. -/
def fillSkills (g : Grid) (i : Nat) (skills : List String) : Grid :=
  match skills with
  | [] => g
  | s :: rest => fillSkills (setCell g (i / 2) (i % 2) (skillCell s)) (i + 1) rest

/-- The KEY SKILLS table: `(len(skills) + 1) // 2` rows of two columns,
filled by the enumeration loop starting at index 0. -/
def skillsTable (skills : List String) : Grid :=
  fillSkills (add_table ((skills.length + 1) / 2) 2) 0 skills

/-- The title run of a job header line: bold, accent color, 10pt. -/
def jobTitleRun (job : Job) : Run :=
  { text := job.title, bold := true, color := some ACCENT, size := some 10 }

/-- The separator run between title and company: `" | "`, dark, 10pt. -/
def sepRun : Run :=
  { text := " | ", color := some DARK, size := some 10 }

/-- The company run of a job header line: bold, primary color, 10pt. -/
def jobCompanyRun (job : Job) : Run :=
  { text := job.company, bold := true, color := some PRIMARY, size := some 10 }

/-- The runs of the left header cell of a job entry: always the title
run, then — only when the company string is truthy, i.e. non-empty —
the separator run and the company run. -/
def jobHeaderRuns (job : Job) : List Run :=
  [jobTitleRun job] ++
    (if job.company ≠ "" then [sepRun, jobCompanyRun job] else [])

/-- The concatenated text of the left header cell of a job entry. -/
def leftCellText (job : Job) : String :=
  String.join ((jobHeaderRuns job).map Run.text)

/-- The left cell of a job header table. -/
def jobLeftCell (job : Job) : Cell :=
  [{ runs := jobHeaderRuns job }]

/-- The right cell of a job header table: the right-aligned date run
(muted gray, 9pt). -/
def jobRightCell (job : Job) : Cell :=
  [{ align := .right,
     runs := [{ text := job.date, color := some GRAY, size := some 9 }] }]

/-- One bullet paragraph: the triangular glyph run followed by the
bullet text run. -/
def bulletPara (b : String) : Block :=
  .para { runs := [ { text := "▸ ", color := some SECONDARY, size := some 9 },
                    { text := b, color := some DARK, size := some 9 } ] }

/-- `_add_job_entry`: a borderless 1x2 header table (title/company on
the left, date on the right) followed by one paragraph per bullet. -/
def _add_job_entry (job : Job) : List Block :=
  Block.table [[jobLeftCell job, jobRightCell job]] :: job.bullets.map bulletPara

/-- `_add_section_heading`: bold primary 12pt text (with a cosmetic
bottom border, not modelled). -/
def _add_section_heading (text : String) : Block :=
  .para { runs := [{ text := text, bold := true, color := some PRIMARY, size := some 12 }] }

/-- `_add_spacer`: an empty spacer paragraph. -/
def spacerBlock : Block := .para {}

/-- An education/certifications column-heading paragraph. -/
def eduHeadPara (label : String) : Para :=
  { runs := [{ text := label, bold := true, color := some DARK, size := some 10 }] }

/-- One education/certification item paragraph. -/
def eduItemPara (item : String) : Para :=
  { runs := [{ text := item, color := some DARK, size := some 9 }] }

/-- The education table: one row, two cells, each a heading paragraph
followed by the items of `data["education"].get(side, [])`. -/
def eduTable (left right : List String) : Grid :=
  [[ eduHeadPara "Education" :: left.map eduItemPara,
     eduHeadPara "Certifications" :: right.map eduItemPara ]]

/-- `build_docx` of the resume script: the block sequence it appends to
the document, in order. -/
def build_docx (data : ResumeData) : List Block :=
  [Block.table (headerTable data.name data.title data.contacts)]
    ++ [spacerBlock]
    ++ [_add_section_heading "KEY SKILLS"]
    ++ [Block.table (skillsTable data.skills)]
    ++ [spacerBlock]
    ++ [_add_section_heading "PROFESSIONAL EXPERIENCE"]
    ++ (data.jobs.map _add_job_entry).flatten
    ++ [_add_section_heading "MILITARY SERVICE"]
    ++ (data.military.map _add_job_entry).flatten
    ++ [_add_section_heading "EDUCATION & CERTIFICATIONS"]
    ++ [Block.table (eduTable data.eduLeft data.eduRight)]

/-- The `__main__` flow: `parse_resume` runs to completion first, then
`build_docx`; an extraction fault propagates and no document value is
produced. -/
def mainResume (html : ResumeHtml) : Except PError (List Block) := do
  let data ← parse_resume html
  .ok (build_docx data)

/-- Observation function: read the bullet text back from a rendered
bullet paragraph (its second run). -/
def extractBulletText (b : Block) : Option String :=
  match b with
  | .para p => (p.runs[1]?).map Run.text
  | .table _ => none

/-- Observation function: read the job record back from a rendered job
block (header table followed by bullet paragraphs). -/
def extractJob (bs : List Block) : Option Job :=
  match bs with
  | .table [[lc, rc]] :: rest => do
      let lp ← lc[0]?
      let tr ← lp.runs[0]?
      let rp ← rc[0]?
      let dr ← rp.runs[0]?
      let bullets ← rest.mapM extractBulletText
      some { title := tr.text,
             company := match lp.runs[2]? with | some r => r.text | none => "",
             date := dr.text,
             bullets := bullets }
  | _ => none

/-- A concrete job record used to exercise the job-entry renderer. -/
def jobEx : Job :=
  { title := "Engineer", company := "BryanLabs", date := "2020 - Present",
    bullets := ["Built the pipeline", "Ran the validators"] }

/-- A concrete section whose title is not one of the three recognized
section titles. -/
def skipSectionEx : SectionDiv :=
  { title := some "Hobbies", jobs := [], twoColumn := none }

/-- A concrete well-formed resume input containing only an
unrecognized section. -/
def resumeHtmlEx : ResumeHtml :=
  { header := some { h1 := some "Matt", titleDiv := some "Engineer",
                     contactRow := some ["a@b.c", "", "555-0100"] },
    skillsGrid := some ["Kubernetes"],
    sections := [skipSectionEx] }

/-- The record `parse_resume` extracts from `resumeHtmlEx`. -/
def resumeDataEx : ResumeData :=
  { name := "Matt", title := "Engineer", contacts := ["a@b.c", "555-0100"],
    skills := ["Kubernetes"], jobs := [], military := [],
    eduLeft := [], eduRight := [] }

end Resume

namespace CoverLetter

open Docx

/-- The `div class="recipient"` element: the optional `company-badge`
span text, and the stripped texts of the remaining children (badge
spans and `br` tags already skipped; structural children may contribute
empty strings, which the extractor filters out). -/
structure RecipientDiv where
  badge : Option String
  children : List String
deriving DecidableEq, Repr

/-- The `div class="closing"` element. -/
structure ClosingDiv where
  regards : Option String
  signature : Option String
  credential : Option String
deriving DecidableEq, Repr

/-- The `div class="content"` element of the cover letter. -/
structure ContentDiv where
  date : Option String
  recipient : Option RecipientDiv
  salutation : Option String
  bodyParagraphs : Option (List String)
  closing : Option ClosingDiv
deriving DecidableEq, Repr

/-- The queried shape of the cover-letter HTML. -/
structure CoverHtml where
  header : Option HeaderDiv
  content : Option ContentDiv
deriving DecidableEq, Repr

/-- The record produced by `parse_cover_letter`. -/
structure CoverData where
  name : String
  title : String
  contacts : List String
  date : String
  badge : String
  recipient_lines : List String
  salutation : String
  paragraphs : List String
  regards : String
  signature : String
  credential : String
deriving DecidableEq, Repr

/-- `parse_cover_letter`: header fields as in the resume script, then
date, badge (defaulting to `""` when absent), non-empty recipient
lines, salutation, body paragraph texts, and the closing triple. -/
def parse_cover_letter (html : CoverHtml) : Except PError CoverData := do
  let header ← findOr html.header
  let name ← findOr header.h1
  let title ← findOr header.titleDiv
  let contactRow ← findOr header.contactRow
  let contacts := contactRow.filter fun t => t ≠ ""
  let content ← findOr html.content
  let date ← findOr content.date
  let recipient ← findOr content.recipient
  let badge := recipient.badge.getD ""
  let recipient_lines := recipient.children.filter fun t => t ≠ ""
  let salutation ← findOr content.salutation
  let paragraphs ← findOr content.bodyParagraphs
  let closing ← findOr content.closing
  let regards ← findOr closing.regards
  let signature ← findOr closing.signature
  let credential ← findOr closing.credential
  .ok { name := name, title := title, contacts := contacts, date := date,
        badge := badge, recipient_lines := recipient_lines,
        salutation := salutation, paragraphs := paragraphs,
        regards := regards, signature := signature, credential := credential }

/-- The right-aligned date paragraph (gray, 10pt). -/
def datePara (date : String) : Block :=
  .para { align := .right, runs := [{ text := date, color := some GRAY, size := some 10 }] }

/-- The badge paragraph is emitted only under `if data["badge"]:`, i.e.
only when the badge string is non-empty. -/
def badgeSegment (badge : String) : List Block :=
  if badge ≠ "" then
    [.para { runs := [{ text := badge, bold := true, color := some PRIMARY, size := some 9 }] }]
  else
    []

/-- An emphasized recipient line: bold, primary color, 11pt. -/
def emphRecipientLine (line : String) : Block :=
  .para { runs := [{ text := line, bold := true, color := some PRIMARY, size := some 11 }] }

/-- A plain recipient line: dark, 11pt. -/
def plainRecipientLine (line : String) : Block :=
  .para { runs := [{ text := line, color := some DARK, size := some 11 }] }

/-- The recipient-line loop: each line is compared against
`data["recipient_lines"][0]` by string equality (`if line ==
data["recipient_lines"][0]`), and rendered emphasized when equal,
plain otherwise. -/
def recipientSegment (lines : List String) : List Block :=
  match lines with
  | [] => []
  | first :: _ =>
      lines.map fun line =>
        if line = first then emphRecipientLine line else plainRecipientLine line

/-- The bold salutation paragraph (accent color, 11pt). -/
def salutationPara (s : String) : Block :=
  .para { runs := [{ text := s, bold := true, color := some ACCENT, size := some 11 }] }

/-- One justified body paragraph (dark, 11pt). -/
def bodyPara (t : String) : Block :=
  .para { align := .justify, runs := [{ text := t, color := some DARK, size := some 11 }] }

/-- The italic closing line (dark, 11pt). -/
def regardsPara (t : String) : Block :=
  .para { runs := [{ text := t, italic := true, color := some DARK, size := some 11 }] }

/-- The bold signature line (primary color, 14pt). -/
def signaturePara (t : String) : Block :=
  .para { runs := [{ text := t, bold := true, color := some PRIMARY, size := some 14 }] }

/-- The muted credential line (gray, 10pt). -/
def credentialPara (t : String) : Block :=
  .para { runs := [{ text := t, color := some GRAY, size := some 10 }] }

/-- The centered footer divider paragraph (empty runs; its thin bottom
border is cosmetic and not modelled). -/
def footerDividerPara : Block :=
  .para { align := .center }

/-- The centered footer links paragraph: five fixed labeled-link runs. -/
def footerLinksPara : Block :=
  .para { align := .center,
          runs := [ { text := "View Resume: ", color := some GRAY, size := some 9 },
                    { text := "mattbfit.net/resume.html", bold := true, color := some PRIMARY, size := some 9 },
                    { text := "  |  ", color := some GRAY, size := some 9 },
                    { text := "Training Videos: ", color := some GRAY, size := some 9 },
                    { text := "mattbfit.net/#showcase", bold := true, color := some PRIMARY, size := some 9 } ] }

/-- `build_docx` of the cover-letter script: the block sequence it
appends to the document, in order. -/
def build_docx (data : CoverData) : List Block :=
  [Block.table (headerTable data.name data.title data.contacts)]
    ++ [datePara data.date]
    ++ badgeSegment data.badge
    ++ recipientSegment data.recipient_lines
    ++ [salutationPara data.salutation]
    ++ data.paragraphs.map bodyPara
    ++ [regardsPara data.regards, signaturePara data.signature,
        credentialPara data.credential]
    ++ [footerDividerPara, footerLinksPara]

/-- The `__main__` flow of the cover-letter script. -/
def mainCoverLetter (html : CoverHtml) : Except PError (List Block) := do
  let data ← parse_cover_letter html
  .ok (build_docx data)

end CoverLetter

/-!
## Theorems

Helper lemmas first, then one theorem per claim (with witnesses and
counterexample evaluations where required).
-/

/-- From any positive starting index on, every enumerated contact
contributes the spacer run followed by its own contact run. -/
theorem contactRuns_enumFrom (n : Nat) (hn : 0 < n) (xs : List String) :
    (List.enumFrom n xs).flatMap
      (fun ic => (if 0 < ic.1 then [Docx.spacerRun] else []) ++ [Docx.contactRun ic.2]) =
      xs.flatMap (fun x => [Docx.spacerRun, Docx.contactRun x]) := by
  induction xs generalizing n with
  | nil => rfl
  | cons x xs ih =>
      simp only [List.enumFrom_cons, List.flatMap_cons]
      rw [ih (n + 1) (Nat.succ_pos n), if_pos hn]
      simp

/-- C7: for a record with contact strings `c :: rest`, the rendered
header contact line consists of exactly one contact run per contact, in
source order, with exactly one four-space spacer run between
consecutive contacts and none before the first or after the last; an
empty contact list renders no runs.  The third paragraph of the header
cell is exactly this centered run list. -/
theorem C7_contact_line (name title c : String) (rest : List String) :
    Docx.contactRuns [] = [] ∧
    Docx.contactRuns (c :: rest) =
      Docx.contactRun c :: rest.flatMap (fun x => [Docx.spacerRun, Docx.contactRun x]) ∧
    (Docx.headerCellParas name title (c :: rest))[2]? =
      some { align := .center, runs := Docx.contactRuns (c :: rest) } := by
  refine ⟨rfl, ?_, rfl⟩
  unfold Docx.contactRuns
  rw [List.enum_cons]
  simp only [List.flatMap_cons]
  rw [contactRuns_enumFrom 1 Nat.one_pos rest]
  simp

/-- C5: whenever the `job-header` sub-block of a job element is
present, `_parse_job` succeeds, an absent title/company/date sub-span
yields the empty string, and an absent bullet list yields the empty
bullet list. -/
theorem C5_parse_job_defaults (j : Resume.JobDiv) (h : Resume.JobHeaderDiv)
    (hh : j.header = some h) :
    Resume._parse_job j =
      .ok { title := h.title.getD "", company := h.company.getD "",
            date := h.date.getD "", bullets := j.bullets.getD [] } := by
  unfold Resume._parse_job
  rw [hh]

/-- Witness for C5 at a concrete job element with a present header,
missing title and date sub-spans, and a missing bullet list. -/
theorem C5_witness :
    Resume._parse_job
      { header := some { title := none, company := some "BryanLabs", date := none },
        bullets := none } =
      .ok { title := "", company := "BryanLabs", date := "", bullets := [] } := by
  exact C5_parse_job_defaults
    { header := some { title := none, company := some "BryanLabs", date := none },
      bullets := none }
    { title := none, company := some "BryanLabs", date := none } rfl

/-- C6: an empty badge string produces no badge paragraph in the cover
letter, and an empty company string omits both the separator run and
the company run from the job header line, whose text is then exactly
the title. -/
theorem C6_empty_optional_fields (badge : String) (job : Resume.Job)
    (hb : badge = "") (hc : job.company = "") :
    CoverLetter.badgeSegment badge = [] ∧
    Resume.jobHeaderRuns job = [Resume.jobTitleRun job] ∧
    Resume.leftCellText job = job.title := by
  subst hb
  refine ⟨rfl, ?_, ?_⟩
  · simp [Resume.jobHeaderRuns, hc]
  · simp [Resume.leftCellText, Resume.jobHeaderRuns, hc, Resume.jobTitleRun,
      String.join, List.foldl]

/-- Witness for C6 at a concrete empty badge and a job with an empty
company string. -/
theorem C6_witness :
    CoverLetter.badgeSegment "" = [] ∧
    Resume.jobHeaderRuns { title := "Consultant", company := "", date := "2024", bullets := [] } =
      [Resume.jobTitleRun { title := "Consultant", company := "", date := "2024", bullets := [] }] ∧
    Resume.leftCellText { title := "Consultant", company := "", date := "2024", bullets := [] } =
      "Consultant" := by
  exact C6_empty_optional_fields "" _ rfl rfl

/-- C10: in a rendered job header line the separator run is present if
and only if the company string is non-empty, independent of the title:
the run list is the title run alone for an empty company and the
title/separator/company triple otherwise, so the left cell text is the
title followed by `" | "` and the company exactly when the company is
non-empty (in particular, for an empty title it begins with `" | "`). -/
theorem C10_separator_iff_company (job : Resume.Job) :
    Resume.jobHeaderRuns job =
      (if job.company ≠ "" then
        [Resume.jobTitleRun job, Resume.sepRun, Resume.jobCompanyRun job]
      else [Resume.jobTitleRun job]) ∧
    Resume.leftCellText job =
      job.title ++ (if job.company ≠ "" then " | " ++ job.company else "") ∧
    (Resume.sepRun ∈ Resume.jobHeaderRuns job ↔ job.company ≠ "") := by
  by_cases hc : job.company = ""
  · refine ⟨by simp [Resume.jobHeaderRuns, hc], ?_, ?_⟩
    · simp [Resume.leftCellText, Resume.jobHeaderRuns, hc, Resume.jobTitleRun,
        String.join, List.foldl]
    · simp only [Resume.jobHeaderRuns, hc]
      constructor
      · intro hmem
        simp at hmem
        have hbold := congrArg Docx.Run.bold hmem
        simp [Resume.sepRun, Resume.jobTitleRun] at hbold
      · intro hne
        exact absurd rfl hne
  · refine ⟨by simp [Resume.jobHeaderRuns, hc], ?_, ?_⟩
    · simp [Resume.leftCellText, Resume.jobHeaderRuns, hc, Resume.jobTitleRun,
        Resume.sepRun, Resume.jobCompanyRun, String.join, List.foldl,
        String.append_assoc]
    · simp [Resume.jobHeaderRuns, hc]

/-- C8: extraction and rendering are deterministic functions of the
input content: byte-identical inputs yield equal records and equal
rendered block sequences, for both pipelines. -/
theorem C8_deterministic (h1 h2 : Resume.ResumeHtml) (g1 g2 : CoverLetter.CoverHtml)
    (hr : h1 = h2) (hg : g1 = g2) :
    Resume.parse_resume h1 = Resume.parse_resume h2 ∧
    Resume.mainResume h1 = Resume.mainResume h2 ∧
    CoverLetter.parse_cover_letter g1 = CoverLetter.parse_cover_letter g2 ∧
    CoverLetter.mainCoverLetter g1 = CoverLetter.mainCoverLetter g2 := by
  subst hr
  subst hg
  exact ⟨rfl, rfl, rfl, rfl⟩

/-- Witness for C8 at a concrete input given twice. -/
theorem C8_witness :
    Resume.mainResume { header := none, skillsGrid := none, sections := [] } =
      Resume.mainResume { header := none, skillsGrid := none, sections := [] } := by
  exact (C8_deterministic { header := none, skillsGrid := none, sections := [] }
    { header := none, skillsGrid := none, sections := [] }
    { header := none, content := none } { header := none, content := none }
    rfl rfl).2.1

/-- C2: an input whose header block is absent makes extraction abort
with an `AttributeError`-style fault, and the main flow of either
script then produces no document value; in general any extraction
fault propagates, so document construction never runs after a failed
extraction. -/
theorem C2_abort_without_output (htmlR : Resume.ResumeHtml) (htmlC : CoverLetter.CoverHtml)
    (hR : htmlR.header = none) (hC : htmlC.header = none) :
    (Resume.parse_resume htmlR = .error .attributeError ∧
     Resume.mainResume htmlR = .error .attributeError) ∧
    (CoverLetter.parse_cover_letter htmlC = .error .attributeError ∧
     CoverLetter.mainCoverLetter htmlC = .error .attributeError) ∧
    (∀ (h : Resume.ResumeHtml) (e : Docx.PError),
      Resume.parse_resume h = .error e → Resume.mainResume h = .error e) ∧
    (∀ (g : CoverLetter.CoverHtml) (e : Docx.PError),
      CoverLetter.parse_cover_letter g = .error e → CoverLetter.mainCoverLetter g = .error e) := by
  refine ⟨⟨?_, ?_⟩, ⟨?_, ?_⟩, ?_, ?_⟩
  · unfold Resume.parse_resume
    rw [hR]
    rfl
  · unfold Resume.mainResume Resume.parse_resume
    rw [hR]
    rfl
  · unfold CoverLetter.parse_cover_letter
    rw [hC]
    rfl
  · unfold CoverLetter.mainCoverLetter CoverLetter.parse_cover_letter
    rw [hC]
    rfl
  · intro h e hp
    unfold Resume.mainResume
    rw [hp]
    rfl
  · intro g e hp
    unfold CoverLetter.mainCoverLetter
    rw [hp]
    rfl

/-- Witness for C2 at concrete inputs with no header block. -/
theorem C2_witness :
    Resume.parse_resume { header := none, skillsGrid := none, sections := [] } =
      .error .attributeError ∧
    CoverLetter.mainCoverLetter { header := none, content := none } =
      .error .attributeError := by
  exact ⟨(C2_abort_without_output { header := none, skillsGrid := none, sections := [] }
      { header := none, content := none } rfl rfl).1.1,
    (C2_abort_without_output { header := none, skillsGrid := none, sections := [] }
      { header := none, content := none } rfl rfl).2.1.2⟩

/-- C1: evaluation at the failing input.  With recipient lines
`["NeuroWorks, Inc.", "NeuroWorks, Inc."]` the renderer compares each
line with the text of the first line, so the second (subsequent) line
is also rendered as the emphasized (bold, colored) line, which differs
from the plain rendering the claim requires for subsequent lines. -/
theorem C1_duplicate_recipient_line_eval :
    CoverLetter.recipientSegment ["NeuroWorks, Inc.", "NeuroWorks, Inc."] =
      [CoverLetter.emphRecipientLine "NeuroWorks, Inc.",
       CoverLetter.emphRecipientLine "NeuroWorks, Inc."] ∧
    CoverLetter.emphRecipientLine "NeuroWorks, Inc." ≠
      CoverLetter.plainRecipientLine "NeuroWorks, Inc." := by
  exact ⟨rfl, by decide⟩

/-- Reading back the cell a `setCell` just wrote, at an in-range
position. -/
theorem getCell_setCell_eq (g : Docx.Grid) (r c : Nat) (x : Docx.Cell)
    (hr : r < g.length) (hc : c < (g.getD r []).length) :
    Docx.getCell (Docx.setCell g r c x) r c = some x := by
  simp only [Docx.getCell, Docx.setCell]
  rw [List.getElem?_set_self (by simpa using hr)]
  simpa using List.getElem?_set_self hc

/-- A `setCell` write leaves every other position unchanged. -/
theorem getCell_setCell_ne (g : Docx.Grid) (r c r' c' : Nat) (x : Docx.Cell)
    (h : r ≠ r' ∨ c ≠ c') :
    Docx.getCell (Docx.setCell g r c x) r' c' = Docx.getCell g r' c' := by
  simp only [Docx.getCell, Docx.setCell]
  rcases h with h | h
  · rw [List.getElem?_set_ne h]
  · by_cases hrr : r = r'
    · subst hrr
      by_cases hlen : r < g.length
      · rw [List.getElem?_set_self hlen, List.getElem?_eq_getElem hlen]
        have hgetD : g.getD r [] = g[r] := by
          rw [List.getD_eq_getElem?_getD, List.getElem?_eq_getElem hlen]
          rfl
        simp only [Option.some_bind]
        rw [List.getElem?_set_ne h, hgetD]
      · have h1 : (g.set r ((g.getD r []).set c x))[r]? = none :=
          List.getElem?_eq_none (by simpa using Nat.le_of_not_lt hlen)
        have h2 : g[r]? = none := List.getElem?_eq_none (Nat.le_of_not_lt hlen)
        rw [h1, h2]
    · rw [List.getElem?_set_ne hrr]

/-- `setCell` preserves the number of rows. -/
theorem setCell_length (g : Docx.Grid) (r c : Nat) (x : Docx.Cell) :
    (Docx.setCell g r c x).length = g.length := by
  simp [Docx.setCell]

/-- `setCell` at an in-range row preserves the two-column shape. -/
theorem setCell_rows (g : Docx.Grid) (r c : Nat) (x : Docx.Cell)
    (hr : r < g.length) (hg : ∀ row ∈ g, row.length = 2) :
    ∀ row ∈ Docx.setCell g r c x, row.length = 2 := by
  intro row hrow
  rcases List.mem_or_eq_of_mem_set hrow with hmem | heq
  · exact hg row hmem
  · subst heq
    rw [List.length_set]
    have hgetD : g.getD r [] = g[r] := by
      rw [List.getD_eq_getElem?_getD, List.getElem?_eq_getElem hr]
      rfl
    rw [hgetD]
    exact hg _ (List.getElem_mem hr)

/-- The skill-filling loop preserves the number of rows. -/
theorem fillSkills_length (skills : List String) (g : Docx.Grid) (start : Nat) :
    (Resume.fillSkills g start skills).length = g.length := by
  induction skills generalizing g start with
  | nil => rfl
  | cons s rest ih =>
      simp only [Resume.fillSkills]
      rw [ih, setCell_length]

/-- The skill-filling loop preserves the two-column shape as long as
every write stays in range. -/
theorem fillSkills_rows (skills : List String) (g : Docx.Grid) (start : Nat)
    (hg : ∀ row ∈ g, row.length = 2)
    (hrange : start + skills.length ≤ 2 * g.length) :
    ∀ row ∈ Resume.fillSkills g start skills, row.length = 2 := by
  induction skills generalizing g start with
  | nil => simpa using hg
  | cons s rest ih =>
      simp only [Resume.fillSkills]
      apply ih
      · exact setCell_rows g _ _ _ (by simp at hrange; omega) hg
      · rw [setCell_length]
        simp at hrange ⊢
        omega

/-- Characterization of the skill-filling loop: position `(r, c)` with
`c < 2` ends up holding the skill cell of index `2*r + c` when that
index lies in the filled range, and is untouched otherwise. -/
theorem fillSkills_getCell (skills : List String) (g : Docx.Grid) (start r c : Nat)
    (hc : c < 2) (hg : ∀ row ∈ g, row.length = 2)
    (hrange : start + skills.length ≤ 2 * g.length) :
    Docx.getCell (Resume.fillSkills g start skills) r c =
      if start ≤ 2 * r + c ∧ 2 * r + c < start + skills.length then
        some (Resume.skillCell (skills.getD (2 * r + c - start) ""))
      else Docx.getCell g r c := by
  induction skills generalizing g start with
  | nil =>
      rw [if_neg (by simp)]
      rfl
  | cons s rest ih =>
      have hlenc : (s :: rest).length = rest.length + 1 := rfl
      rw [hlenc] at hrange
      have hstart : start / 2 < g.length := by omega
      have hgetD : g.getD (start / 2) [] = g[start / 2] := by
        rw [List.getD_eq_getElem?_getD, List.getElem?_eq_getElem hstart]
        rfl
      have hrow2 : (g.getD (start / 2) []).length = 2 := by
        rw [hgetD]
        exact hg _ (List.getElem_mem hstart)
      simp only [Resume.fillSkills]
      rw [ih (Docx.setCell g (start / 2) (start % 2) (Resume.skillCell s)) (start + 1)
        (setCell_rows g _ _ _ hstart hg) (by rw [setCell_length]; omega)]
      by_cases h1 : 2 * r + c = start
      · rw [if_neg (by omega), if_pos (by rw [hlenc]; omega)]
        have hzero : 2 * r + c - start = 0 := by omega
        rw [hzero, List.getD_cons_zero]
        have hr2 : r = start / 2 := by omega
        have hc2 : c = start % 2 := by omega
        rw [hr2, hc2]
        exact getCell_setCell_eq g _ _ _ hstart (by rw [hrow2]; omega)
      · by_cases h2 : start ≤ 2 * r + c ∧ 2 * r + c < start + (rest.length + 1)
        · rw [if_pos (by omega), if_pos (by rw [hlenc]; omega)]
          have hshift : 2 * r + c - start = (2 * r + c - (start + 1)) + 1 := by omega
          rw [hshift, List.getD_cons_succ]
        · rw [if_neg (by omega), if_neg (by rw [hlenc]; omega)]
          apply getCell_setCell_ne
          by_contra hcon
          push_neg at hcon
          omega

/-- C3: for a skills list of length `N >= 1`, the rendered skills table
has exactly `ceil(N/2) = (N+1)/2` rows of two columns; skill `i` sits
in row `i / 2`, column `i % 2`; and when `N` is odd the second cell of
the last row is the untouched empty cell, so every row holds two items
except the last, which holds one. -/
theorem C3_skills_layout (skills : List String) (hN : 1 ≤ skills.length) :
    (Resume.skillsTable skills).length = (skills.length + 1) / 2 ∧
    (∀ row ∈ Resume.skillsTable skills, row.length = 2) ∧
    (∀ i, i < skills.length →
      Docx.getCell (Resume.skillsTable skills) (i / 2) (i % 2) =
        some (Resume.skillCell (skills.getD i ""))) ∧
    (skills.length % 2 = 1 →
      Docx.getCell (Resume.skillsTable skills) (skills.length / 2) 1 =
        some Docx.emptyCell) := by
  have hrows : ∀ row ∈ Docx.add_table ((skills.length + 1) / 2) 2, row.length = 2 := by
    intro row hrow
    rw [List.eq_of_mem_replicate hrow]
    simp
  have hlen : (Docx.add_table ((skills.length + 1) / 2) 2).length = (skills.length + 1) / 2 := by
    simp [Docx.add_table]
  have hrange : 0 + skills.length ≤ 2 * (Docx.add_table ((skills.length + 1) / 2) 2).length := by
    rw [hlen]
    omega
  refine ⟨?_, ?_, ?_, ?_⟩
  · rw [Resume.skillsTable, fillSkills_length, hlen]
  · exact fillSkills_rows _ _ _ hrows hrange
  · intro i hi
    rw [Resume.skillsTable,
      fillSkills_getCell skills _ 0 (i / 2) (i % 2) (by omega) hrows hrange,
      if_pos (by omega)]
    have hidx : 2 * (i / 2) + i % 2 - 0 = i := by omega
    rw [hidx]
  · intro hodd
    rw [Resume.skillsTable,
      fillSkills_getCell skills _ 0 (skills.length / 2) 1 (by omega) hrows hrange,
      if_neg (by omega)]
    simp only [Docx.getCell, Docx.add_table]
    rw [List.getElem?_replicate_of_lt (by omega)]
    simp

/-- Witness for C3 on a concrete three-element (odd) skills list. -/
theorem C3_witness :
    1 ≤ (["Kubernetes", "Go", "AWS"] : List String).length ∧
    ((Resume.skillsTable ["Kubernetes", "Go", "AWS"]).length =
        ((["Kubernetes", "Go", "AWS"] : List String).length + 1) / 2 ∧
      (∀ row ∈ Resume.skillsTable ["Kubernetes", "Go", "AWS"], row.length = 2) ∧
      (∀ i, i < (["Kubernetes", "Go", "AWS"] : List String).length →
        Docx.getCell (Resume.skillsTable ["Kubernetes", "Go", "AWS"]) (i / 2) (i % 2) =
          some (Resume.skillCell ((["Kubernetes", "Go", "AWS"] : List String).getD i ""))) ∧
      ((["Kubernetes", "Go", "AWS"] : List String).length % 2 = 1 →
        Docx.getCell (Resume.skillsTable ["Kubernetes", "Go", "AWS"])
            ((["Kubernetes", "Go", "AWS"] : List String).length / 2) 1 =
          some Docx.emptyCell)) :=
  ⟨by decide, C3_skills_layout ["Kubernetes", "Go", "AWS"] (by decide)⟩

/-- Binding a failed extraction step short-circuits. -/
theorem bind_error_eq {α β : Type} (e : Docx.PError) (f : α → Except Docx.PError β) :
    (Except.error e >>= f) = Except.error e := rfl

/-- Binding a successful extraction step continues with its value. -/
theorem bind_ok_eq {α β : Type} (a : α) (f : α → Except Docx.PError β) :
    (Except.ok a >>= f) = f a := rfl

/-- Injectivity of a successful extraction outcome. -/
theorem ok_inj {α : Type} {a b : α}
    (h : (Except.ok a : Except Docx.PError α) = Except.ok b) : a = b := by
  injection h

/-- A failed extraction outcome is never a successful one. -/
theorem error_ne_ok {α : Type} {e : Docx.PError} {a : α}
    (h : (Except.error e : Except Docx.PError α) = Except.ok a) : False := by
  exact Except.noConfusion h

/-- Bullet texts survive the render/extract round trip. -/
theorem mapM_extractBulletText (l : List String) :
    (l.map Resume.bulletPara).mapM Resume.extractBulletText = some l := by
  induction l with
  | nil => rfl
  | cons b bs ih =>
      rw [List.map_cons, List.mapM_cons,
        show Resume.extractBulletText (Resume.bulletPara b) = some b from rfl, ih]
      rfl

/-- A rendered job block reads back as exactly the job record it was
rendered from. -/
theorem extractJob_add_job_entry (job : Resume.Job) :
    Resume.extractJob (Resume._add_job_entry job) = some job := by
  obtain ⟨jt, jc, jd, jb⟩ := job
  by_cases hc : jc = ""
  · subst hc
    unfold Resume._add_job_entry
    show ((jb.map Resume.bulletPara).mapM Resume.extractBulletText).bind
        (fun bullets =>
          some ({ title := jt, company := "", date := jd, bullets := bullets } : Resume.Job)) =
      some ({ title := jt, company := "", date := jd, bullets := jb } : Resume.Job)
    rw [mapM_extractBulletText]
    rfl
  · unfold Resume._add_job_entry
    have hlc : Resume.jobLeftCell { title := jt, company := jc, date := jd, bullets := jb } =
        [{ align := Docx.Align.left,
           runs := [Resume.jobTitleRun { title := jt, company := jc, date := jd, bullets := jb },
                    Resume.sepRun,
                    Resume.jobCompanyRun { title := jt, company := jc, date := jd, bullets := jb }] }] := by
      simp [Resume.jobLeftCell, Resume.jobHeaderRuns, hc]
    rw [hlc]
    show ((jb.map Resume.bulletPara).mapM Resume.extractBulletText).bind
        (fun bullets =>
          some ({ title := jt, company := jc, date := jd, bullets := bullets } : Resume.Job)) =
      some ({ title := jt, company := jc, date := jd, bullets := jb } : Resume.Job)
    rw [mapM_extractBulletText]
    rfl

/-- C4: the renderer emits exactly one job block per extracted job, in
list order (`build_docx` appends the flattening of this map), and each
block carries exactly the title, company, date and bullet strings of
the corresponding job record, with no block reordered, dropped or
duplicated. -/
theorem C4_job_blocks (jobs : List Resume.Job) (i : Nat) (hi : i < jobs.length) :
    (jobs.map Resume._add_job_entry).length = jobs.length ∧
    (jobs.map Resume._add_job_entry)[i]? =
      some (Resume._add_job_entry (jobs.getD i default)) ∧
    Resume.extractJob ((jobs.map Resume._add_job_entry).getD i []) =
      some (jobs.getD i default) := by
  have hgd : jobs.getD i default = jobs[i] := by
    rw [List.getD_eq_getElem?_getD, List.getElem?_eq_getElem hi]
    rfl
  refine ⟨List.length_map _ _, ?_, ?_⟩
  · rw [List.getElem?_map, List.getElem?_eq_getElem hi, hgd]
    rfl
  · rw [List.getD_eq_getElem?_getD, List.getElem?_map, List.getElem?_eq_getElem hi, hgd]
    exact extractJob_add_job_entry _

/-- Witness for C4 on a concrete one-job list. -/
theorem C4_witness :
    0 < ([Resume.jobEx] : List Resume.Job).length ∧
    (([Resume.jobEx].map Resume._add_job_entry).length = ([Resume.jobEx] : List Resume.Job).length ∧
     ([Resume.jobEx].map Resume._add_job_entry)[0]? =
       some (Resume._add_job_entry (([Resume.jobEx] : List Resume.Job).getD 0 default)) ∧
     Resume.extractJob (([Resume.jobEx].map Resume._add_job_entry).getD 0 []) =
       some (([Resume.jobEx] : List Resume.Job).getD 0 default)) :=
  ⟨by decide, C4_job_blocks [Resume.jobEx] 0 (by decide)⟩

/-- Processing a non-education section never changes the education
lists of the accumulator record. -/
theorem processSection_preserves_edu (acc acc' : Resume.ResumeData) (s : Resume.SectionDiv)
    (ht : s.title ≠ some "Education & Certifications")
    (hp : Resume.processSection acc s = .ok acc') :
    acc'.eduLeft = acc.eduLeft ∧ acc'.eduRight = acc.eduRight := by
  cases hts : s.title with
  | none =>
      simp [Resume.processSection, hts] at hp
      subst hp
      exact ⟨rfl, rfl⟩
  | some t =>
      by_cases h1 : t = "Professional Experience"
      · subst h1
        cases hm : Resume.parseJobs s.jobs with
        | error e =>
            simp [Resume.processSection, hts, hm, bind_error_eq] at hp
        | ok js =>
            simp [Resume.processSection, hts, hm, bind_ok_eq] at hp
            subst hp
            exact ⟨rfl, rfl⟩
      · by_cases h2 : t = "Military Service"
        · subst h2
          cases hm : Resume.parseJobs s.jobs with
          | error e =>
              simp [Resume.processSection, hts, hm, bind_error_eq] at hp
          | ok js =>
              simp [Resume.processSection, hts, hm, bind_ok_eq] at hp
              subst hp
              exact ⟨rfl, rfl⟩
        · by_cases h3 : t = "Education & Certifications"
          · exact absurd (by rw [hts, h3]) ht
          · simp [Resume.processSection, hts, h1, h2, h3] at hp
            subst hp
            exact ⟨rfl, rfl⟩

/-- Folding the section loop over sections none of which is the
education section leaves the education lists of the accumulator
unchanged. -/
theorem foldlM_processSection_edu (sections : List Resume.SectionDiv) :
    ∀ (acc d : Resume.ResumeData),
      (∀ s ∈ sections, s.title ≠ some "Education & Certifications") →
      sections.foldlM Resume.processSection acc = .ok d →
      d.eduLeft = acc.eduLeft ∧ d.eduRight = acc.eduRight := by
  induction sections with
  | nil =>
      intro acc d _ h
      have h2 := ok_inj h
      subst h2
      exact ⟨rfl, rfl⟩
  | cons s ss ih =>
      intro acc d hs h
      rw [List.foldlM_cons] at h
      cases hp : Resume.processSection acc s with
      | error e =>
          rw [hp, bind_error_eq] at h
          exact (error_ne_ok h).elim
      | ok acc' =>
          rw [hp, bind_ok_eq] at h
          have h1 := processSection_preserves_edu acc acc' s (hs s (by simp)) hp
          have h2 := ih acc' d (fun u hu => hs u (by simp [hu])) h
          exact ⟨h2.1.trans h1.1, h2.2.trans h1.2⟩

/-- A fully present header and skills grid reduce `parse_resume` to the
section fold started from the freshly initialized record. -/
theorem parse_resume_ok_fold (n t : String) (cr sk : List String)
    (secs : List Resume.SectionDiv) :
    Resume.parse_resume
      { header := some { h1 := some n, titleDiv := some t, contactRow := some cr },
        skillsGrid := some sk, sections := secs } =
      secs.foldlM Resume.processSection
        { name := n, title := t, contacts := cr.filter (fun x => x ≠ ""),
          skills := sk, jobs := [], military := [], eduLeft := [], eduRight := [] } := rfl

/-- C9: a section without a title element, or whose title is none of
the three recognized strings, is skipped silently and contributes
nothing to the record; in particular, when no section carries the
education title, a successful extraction leaves both education lists
empty instead of aborting. -/
theorem C9_section_skipping (acc : Resume.ResumeData) (s : Resume.SectionDiv) :
    (s.title = none → Resume.processSection acc s = .ok acc) ∧
    (∀ t, s.title = some t → t ≠ "Professional Experience" →
      t ≠ "Military Service" → t ≠ "Education & Certifications" →
      Resume.processSection acc s = .ok acc) ∧
    (∀ (html : Resume.ResumeHtml) (d : Resume.ResumeData),
      Resume.parse_resume html = .ok d →
      (∀ sec ∈ html.sections, sec.title ≠ some "Education & Certifications") →
      d.eduLeft = [] ∧ d.eduRight = []) := by
  refine ⟨?_, ?_, ?_⟩
  · intro h
    simp [Resume.processSection, h]
  · intro t ht h1 h2 h3
    simp [Resume.processSection, ht, h1, h2, h3]
  · intro html d hp hs
    obtain ⟨hd, sk, secs⟩ := html
    cases hd with
    | none =>
        rw [show Resume.parse_resume { header := none, skillsGrid := sk, sections := secs } =
          Except.error Docx.PError.attributeError from rfl] at hp
        simp at hp
    | some hdr =>
        obtain ⟨h1f, tf, crf⟩ := hdr
        cases h1f with
        | none =>
            rw [show Resume.parse_resume
                { header := some { h1 := none, titleDiv := tf, contactRow := crf },
                  skillsGrid := sk, sections := secs } =
              Except.error Docx.PError.attributeError from rfl] at hp
            simp at hp
        | some n =>
            cases tf with
            | none =>
                rw [show Resume.parse_resume
                    { header := some { h1 := some n, titleDiv := none, contactRow := crf },
                      skillsGrid := sk, sections := secs } =
                  Except.error Docx.PError.attributeError from rfl] at hp
                simp at hp
            | some t =>
                cases crf with
                | none =>
                    rw [show Resume.parse_resume
                        { header := some { h1 := some n, titleDiv := some t, contactRow := none },
                          skillsGrid := sk, sections := secs } =
                      Except.error Docx.PError.attributeError from rfl] at hp
                    simp at hp
                | some cr =>
                    cases sk with
                    | none =>
                        rw [show Resume.parse_resume
                            { header := some { h1 := some n, titleDiv := some t,
                                               contactRow := some cr },
                              skillsGrid := none, sections := secs } =
                          Except.error Docx.PError.attributeError from rfl] at hp
                        simp at hp
                    | some sklist =>
                        rw [parse_resume_ok_fold] at hp
                        exact foldlM_processSection_edu secs _ d hs hp

/-- Witness for C9 at a concrete unrecognized section and a concrete
input whose only section is that section. -/
theorem C9_witness :
    Resume.processSection Resume.resumeDataEx Resume.skipSectionEx = .ok Resume.resumeDataEx ∧
    (Resume.resumeDataEx.eduLeft = [] ∧ Resume.resumeDataEx.eduRight = []) :=
  ⟨(C9_section_skipping Resume.resumeDataEx Resume.skipSectionEx).2.1 "Hobbies" rfl
      (by decide) (by decide) (by decide),
   (C9_section_skipping Resume.resumeDataEx Resume.skipSectionEx).2.2 Resume.resumeHtmlEx
      Resume.resumeDataEx (by rfl) (by decide)⟩
